import Mathlib

/-!
Verification of the document/session core of the `notepad` application
(`src/notepad/app.py`, `src/notepad/file_ops.py`, `src/notepad/ui.py`).

Strings of the Python program are modelled as `List Char` (Python strings are
sequences of Unicode scalar values; the Tk text widget stores scalar values
only).  Byte strings are modelled as `List Nat` with every element < 256.

The Tk text widget semantics used by the embedding (standard, documented
behaviour of `tk.Text`):
  * the widget always keeps one automatic newline after the logical content,
    so `get("1.0", END)` returns the logical buffer plus a trailing `"\n"`,
    while `get("1.0", "end-1c")` returns exactly the logical buffer;
  * `delete` never removes the automatic final newline;
  * an index whose line number lies past the last line is rounded to `end`,
    and inserting at `end` appends just before the automatic final newline.
-/

namespace Notepad

/-- Left-to-right scan counting non-overlapping occurrences of a non-empty
`needle`.  After a hit the scan still walks the list one element at a time;
`skip` counts how many characters of the current hit remain to be passed
over before matching may resume (Python's `str.count` jumps by the needle's
length after each hit). -/
def strCountAux (needle : List Char) (skip : Nat) : List Char → Nat
  | [] => 0
  | c :: rest =>
    match skip with
    | k + 1 => strCountAux needle k rest
    | 0 =>
      if needle.isPrefixOf (c :: rest) then
        1 + strCountAux needle (needle.length - 1) rest
      else
        strCountAux needle 0 rest

/-- Python `hay.count(needle)`: non-overlapping occurrences, scanning left
to right; for the empty needle Python counts `len(hay) + 1`. -/
def strCount (needle hay : List Char) : Nat :=
  if needle = [] then hay.length + 1 else strCountAux needle 0 hay

/-- Left-to-right scan replacing non-overlapping occurrences of a non-empty
`needle` by `repl`; `skip` counts the characters of the current hit still
to be dropped. -/
def strReplaceAux (needle repl : List Char) (skip : Nat) : List Char → List Char
  | [] => []
  | c :: rest =>
    match skip with
    | k + 1 => strReplaceAux needle repl k rest
    | 0 =>
      if needle.isPrefixOf (c :: rest) then
        repl ++ strReplaceAux needle repl (needle.length - 1) rest
      else
        c :: strReplaceAux needle repl 0 rest

/-- Python `hay.replace(needle, repl)`: replace all non-overlapping
occurrences, scanning left to right; for the empty needle Python interleaves
the replacement around every character. -/
def strReplace (needle repl hay : List Char) : List Char :=
  if needle = [] then repl ++ hay.flatMap (fun ch => ch :: repl)
  else strReplaceAux needle repl 0 hay

/-- The `replace` handler of `NotepadApp` (app.py, `replace`).  It reads the
buffer with `text.get("1.0", tk.END)` — which yields the logical buffer plus
the widget's automatic trailing newline — counts the occurrences there, and
on a match performs a global replace of that string, writes it back with
`delete("1.0", END); insert("1.0", content)` (so the logical buffer becomes
exactly the written string) and sets the dirty flag.  An empty query makes
the dialog handler return immediately.  Result: new logical buffer, whether
the dirty flag was set, and the reported occurrence count (`none` when the
handler reported "No matches found." or returned early). -/
def replaceDialog (buf query repl : List Char) : List Char × Bool × Option Nat :=
  if query = [] then (buf, false, none)
  else
    let content := buf ++ ['\n']
    let occurrences := strCount query content
    if occurrences = 0 then (buf, false, none)
    else (strReplace query repl content, true, some occurrences)

/-! ### Encoding detection (`file_ops._detect_encoding`) -/

/-- Byte-order mark of UTF-8 (`codecs.BOM_UTF8`). -/
def bomUTF8 : List Nat := [0xEF, 0xBB, 0xBF]

/-- Byte-order mark of UTF-16 little endian (`codecs.BOM_UTF16_LE`). -/
def bomUTF16LE : List Nat := [0xFF, 0xFE]

/-- Byte-order mark of UTF-16 big endian (`codecs.BOM_UTF16_BE`). -/
def bomUTF16BE : List Nat := [0xFE, 0xFF]

/-- Whether a byte is a UTF-8 continuation byte (`0x80..0xBF`). -/
def isCont (b : Nat) : Bool := 0x80 ≤ b && b ≤ 0xBF

/-- Strict UTF-8 validity of a byte sequence, exactly the condition under
which Python's `bytes.decode("utf-8")` succeeds: well-formed RFC 3629
sequences only — no overlong forms, no surrogate codepoints, nothing above
U+10FFFF. -/
def utf8Valid : List Nat → Bool
  | [] => true
  | b :: rest =>
    if b ≤ 0x7F then utf8Valid rest
    else if b < 0xC2 then false
    else if b ≤ 0xDF then
      match rest with
      | b1 :: r => isCont b1 && utf8Valid r
      | [] => false
    else if b ≤ 0xEF then
      match rest with
      | b1 :: b2 :: r =>
        (if b = 0xE0 then 0xA0 ≤ b1 && b1 ≤ 0xBF
         else if b = 0xED then 0x80 ≤ b1 && b1 ≤ 0x9F
         else isCont b1) && isCont b2 && utf8Valid r
      | _ => false
    else if b ≤ 0xF4 then
      match rest with
      | b1 :: b2 :: b3 :: r =>
        (if b = 0xF0 then 0x90 ≤ b1 && b1 ≤ 0xBF
         else if b = 0xF4 then 0x80 ≤ b1 && b1 ≤ 0x8F
         else isCont b1) && isCont b2 && isCont b3 && utf8Valid r
      | _ => false
    else false

/-- The encoding sniffer `_detect_encoding` of `file_ops.py`: a BOM check in
the source's order, then a strict UTF-8 decode attempt, then the `cp1252`
("ANSI") fallback.  Returns the (label, codec) pair. -/
def detectEncoding (raw : List Nat) : String × String :=
  if bomUTF8.isPrefixOf raw then ("UTF-8-BOM", "utf-8-sig")
  else if bomUTF16LE.isPrefixOf raw then ("UTF-16 LE", "utf-16-le")
  else if bomUTF16BE.isPrefixOf raw then ("UTF-16 BE", "utf-16-be")
  else if utf8Valid raw then ("UTF-8", "utf-8")
  else ("ANSI", "cp1252")

/-! ### Tk line model and `_move_line` -/

/-- The lines of a logical Tk buffer: split at every `'\n'` (Tk's only line
separator).  The result is always non-empty; the widget shows `n` lines
where `n` is the length of this list. -/
def splitNl : List Char → List (List Char)
  | [] => [[]]
  | c :: rest =>
    if c = '\n' then [] :: splitNl rest
    else
      match splitNl rest with
      | [] => [[c]]
      | line :: more => (c :: line) :: more

/-- Join lines back with `'\n'` separators. -/
def joinNl (lines : List (List Char)) : List Char := List.intercalate ['\n'] lines

/-- The `_move_line` helper of `NotepadApp` (app.py).  `cursor` is the
1-based line number of the insert mark, `dir` is `-1` (move up) or `1`
(move down).  The source:

  * returns untouched when `target_line = cursor + dir < 1`;
  * reads `content = get(cursor.0, "cursor.0 lineend+1c")`, i.e. the line's
    characters plus one newline (for the last line that newline is the
    widget's automatic one);
  * deletes that range — Tk never deletes the automatic final newline, so on
    the last line only the line's characters disappear;
  * inserts `content` at `target_line.0`; a line number past the last line is
    rounded to `end`, and inserting at `end` appends just before the
    automatic final newline;
  * sets the dirty flag.

Returns the new logical buffer and whether the dirty flag was set. -/
def moveLine (buf : List Char) (cursor : Nat) (dir : Int) : List Char × Bool :=
  let lines := splitNl buf
  let n := lines.length
  let target : Int := (cursor : Int) + dir
  if target < 1 then (buf, false)
  else
    let content := lines.getD (cursor - 1) []
    let afterDelete : List (List Char) :=
      if cursor < n then lines.eraseIdx (cursor - 1)
      else lines.take (n - 1) ++ [[]]
    if target.toNat ≤ afterDelete.length then
      (joinNl (afterDelete.insertIdx (target.toNat - 1) content), true)
    else
      (joinNl afterDelete ++ content ++ ['\n'], true)

/-! ### Python string helpers -/

/-- The characters at which Python `str.splitlines` breaks a line:
`\n`, `\r` (and the pair `\r\n`), `\v`, `\f`, `\x1c`, `\x1d`, `\x1e`,
`\x85` (NEL), `\u2028` (LS), `\u2029` (PS). -/
def isLineBoundary (c : Char) : Bool :=
  c = '\n' || c = '\r' || c = '\x0b' || c = '\x0c' || c = '\x1c' ||
  c = '\x1d' || c = '\x1e' || c = '\x85' || c = '\u2028' || c = '\u2029'

/-- Python `str.splitlines()`: split at every line boundary (with `\r\n`
counting as a single boundary); a trailing boundary does not produce a final
empty line. -/
def splitlines : List Char → List (List Char)
  | [] => []
  | c :: rest =>
    if c = '\r' then
      match rest with
      | '\n' :: rest2 => [] :: splitlines rest2
      | [] => [[]]
      | c2 :: rest2 => [] :: splitlines (c2 :: rest2)
    else if isLineBoundary c then [] :: splitlines rest
    else
      match splitlines rest with
      | [] => [[c]]
      | line :: more => (c :: line) :: more

/-- The characters Python `str.isspace` (and hence `str.strip()` with no
argument) treats as whitespace. -/
def pyIsSpace (c : Char) : Bool :=
  (0x9 ≤ c.toNat && c.toNat ≤ 0xd) || (0x1c ≤ c.toNat && c.toNat ≤ 0x20) ||
  c.toNat = 0x85 || c.toNat = 0xa0 || c.toNat = 0x1680 ||
  (0x2000 ≤ c.toNat && c.toNat ≤ 0x200a) || c.toNat = 0x2028 ||
  c.toNat = 0x2029 || c.toNat = 0x202f || c.toNat = 0x205f || c.toNat = 0x3000

/-- Python `str.strip()`: drop whitespace from both ends. -/
def pyStrip (l : List Char) : List Char :=
  ((l.dropWhile pyIsSpace).reverse.dropWhile pyIsSpace).reverse

/-- Python truthiness of `line.strip()` being empty: a blank line. -/
def isBlankLine (l : List Char) : Bool := pyStrip l = []

/-- Python `line.strip().startswith("#")`: the stripped line is non-empty
and its first character is `#`. -/
def stripStartsHash (l : List Char) : Bool :=
  match pyStrip l with
  | c :: _ => c = '#'
  | [] => false

/-- Python `line.replace("#", "", 1)`: remove the first occurrence of the
character `#`, leaving everything else (including any space after it). -/
def removeFirstHash : List Char → List Char
  | [] => []
  | c :: rest => if c = '#' then rest else c :: removeFirstHash rest

/-- Join Python lines back with `'\n'`, as the transforms' `"\n".join(...)`. -/
def joinLines : List (List Char) → List Char
  | [] => []
  | [l] => l
  | l :: l2 :: rest => l ++ '\n' :: joinLines (l2 :: rest)

/-! ### Transforms (`NotepadApp.toggle_comment`, `NotepadApp.unique_lines`) -/

/-- The global condition of `toggle_comment`:
`all(line.strip().startswith("#") for line in lines if line.strip())` — every
non-blank line has `#` as its first non-whitespace character. -/
def allNonBlankHash (lines : List (List Char)) : Bool :=
  lines.all (fun l => isBlankLine l || stripStartsHash l)

/-- The line rewriting of `toggle_comment` (app.py): when every non-blank
line already starts (after leading whitespace) with `#`, remove the first
`#` of each such line via `line.replace("#", "", 1)`; otherwise prefix
`"# "` to every non-blank line.  Blank lines are never changed. -/
def toggleCommentLines (lines : List (List Char)) : List (List Char) :=
  if allNonBlankHash lines then
    lines.map (fun l => if stripStartsHash l then removeFirstHash l else l)
  else
    lines.map (fun l => if isBlankLine l then l else '#' :: ' ' :: l)

/-- `toggle_comment` as a text-to-text function on the extracted range:
`splitlines`, rewrite, `"\n".join`. -/
def toggleComment (s : List Char) : List Char :=
  joinLines (toggleCommentLines (splitlines s))

/-- The de-duplication loop of `unique_lines` (app.py): keep the first
occurrence of each distinct line, tracking the lines already seen. -/
def dedupLines (seen : List (List Char)) : List (List Char) → List (List Char)
  | [] => []
  | l :: rest =>
    if l ∈ seen then dedupLines seen rest
    else l :: dedupLines (l :: seen) rest

/-- The `_unique` transform of `unique_lines`: de-duplicate the
`splitlines` of the text and re-join with `"\n"`. -/
def uniqueLines (s : List Char) : List Char :=
  joinLines (dedupLines [] (splitlines s))

/-! ### Documents -/

/-- The per-tab state of `Document` (app.py): the text widget's logical
buffer, the remembered file path, the dirty flag, and the encoding label.
A fresh document has `dirty = False` and `encoding = "UTF-8"`. -/
structure Document where
  content : List Char
  filePath : Option String
  dirty : Bool
  encoding : String
deriving Repr, DecidableEq

/-- A new blank document, as built by `Document.__init__`. -/
def blankDocument : Document :=
  { content := [], filePath := none, dirty := false, encoding := "UTF-8" }

/-- The label-to-codec table `NotepadApp._encoding_codec`, with its
`"utf-8"` default for unknown labels. -/
def encodingCodec (label : String) : String :=
  if label = "UTF-8" then "utf-8"
  else if label = "UTF-8-BOM" then "utf-8-sig"
  else if label = "UTF-16 LE" then "utf-16-le"
  else if label = "UTF-16 BE" then "utf-16-be"
  else if label = "ANSI" then "cp1252"
  else "utf-8"

/-- Whether a Unicode scalar value can be encoded by Python's `cp1252`
codec: ASCII, `U+00A0..U+00FF` (which map to the same byte), and the 27
codepoints the Windows-1252 table places at bytes `0x80..0x9F`. -/
def cp1252Encodable (c : Char) : Bool :=
  c.toNat < 0x80 || (0xA0 ≤ c.toNat && c.toNat ≤ 0xFF) ||
  c.toNat ∈ [0x20AC, 0x201A, 0x0192, 0x201E, 0x2026, 0x2020, 0x2021, 0x02C6,
             0x2030, 0x0160, 0x2039, 0x0152, 0x017D, 0x2018, 0x2019, 0x201C,
             0x201D, 0x2022, 0x2013, 0x2014, 0x02DC, 0x2122, 0x0161, 0x203A,
             0x0153, 0x017E, 0x0178]

/-- Whether `ch.encode(codec, errors="strict")` succeeds for one character.
Characters here are Unicode scalar values (all a Tk text widget can hold),
so the UTF-8 and UTF-16 codecs encode every one of them; only `cp1252`
rejects characters outside its table. -/
def encodableChar (codec : String) (c : Char) : Bool :=
  if codec = "cp1252" then cp1252Encodable c else true

/-- Python `content.encode(codec, errors="strict").decode(codec)` for the
five codecs of `_encoding_codec`: it fails exactly when some character is
not encodable, and on success it returns the original string (for each of
these codecs decoding inverts encoding; `utf-8-sig` adds a BOM that its
decoder strips again). -/
def pyEncodeDecode (codec : String) (content : List Char) : Option (List Char) :=
  if content.all (encodableChar codec) then some content else none

/-- `NotepadApp.convert_encoding`: try to transcode the buffer; on a
`UnicodeError` show a dialog and return with the document untouched; on
success write the transcoded text back, adopt the label and set the dirty
flag.  The second component records whether the error dialog was shown. -/
def convertEncoding (label : String) (d : Document) : Document × Bool :=
  match pyEncodeDecode (encodingCodec label) d.content with
  | none => (d, true)
  | some converted =>
    ({ d with content := converted, encoding := label, dirty := true }, false)

/-! ### Operations on one document (for the dirty-flag invariant)

Every handler of `NotepadApp` that touches a document's persistent state is
represented; handlers that only move the cursor or change the view are the
`moveCursor` case.  Outcomes of modal dialogs and of the filesystem are
explicit arguments. -/

/-- One operation on a single document. -/
inductive DocOp where
  /-- A keystroke, paste, timestamp/TODO insert, cut or delete: the widget
  changes and `on_content_change` (bound to the edit events) runs. -/
  | typedEdit (pos : Nat) (ins : List Char) : DocOp
  /-- `_apply_transform` with operand range `[a, b)` (the selection, the
  whole buffer, or the current line) and a transform `f`. -/
  | applyTransform (a b : Nat) (f : List Char → List Char) : DocOp
  /-- The `replace` dialog with its query and replacement. -/
  | replaceAll (query repl : List Char) : DocOp
  /-- `convert_encoding` towards `label`. -/
  | convertEnc (label : String) : DocOp
  /-- `save_file`; `outcome` is the path `file_ops.save_file` returned, or
  `none` when the dialog was cancelled or the write raised `OSError`. -/
  | saveFile (outcome : Option String) : DocOp
  /-- A fresh load of the buffer: `open_file`, `reload_file`,
  `open_recent`, or `reopen_closed_tab` restoring a snapshot. -/
  | loadFresh (content : List Char) (path : Option String) (enc : String) : DocOp
  /-- `set_encoding`: relabel only, no transcode. -/
  | setEnc (label : String) : DocOp
  /-- `find` / `find_next` / `go_to` / selection commands: cursor only. -/
  | moveCursor : DocOp

/-- Effect of one operation on a document, transcribed handler by handler
from app.py. -/
def applyDocOp (op : DocOp) (d : Document) : Document :=
  match op with
  | .typedEdit pos ins =>
    { d with content := d.content.take pos ++ ins ++ d.content.drop pos,
             dirty := true }
  | .applyTransform a b f =>
    { d with content := d.content.take a ++ f ((d.content.drop a).take (b - a)) ++ d.content.drop b,
             dirty := true }
  | .replaceAll query repl =>
    let r := replaceDialog d.content query repl
    if r.2.1 then { d with content := r.1, dirty := true } else d
  | .convertEnc label => (convertEncoding label d).1
  | .saveFile outcome =>
    match outcome with
    | none => d
    | some p => { d with filePath := some p, dirty := false }
  | .loadFresh content path enc =>
    { content := content, filePath := path, dirty := false, encoding := enc }
  | .setEnc label => { d with encoding := label }
  | .moveCursor => d

/-- The operations the specification calls content-mutating, together with
the guard under which the source actually performs the mutation: edits and
transforms always do; `replace` only when the query is non-empty and occurs;
`convert_encoding` only when every character is encodable. -/
def opMutates (op : DocOp) (d : Document) : Bool :=
  match op with
  | .typedEdit _ _ => true
  | .applyTransform _ _ _ => true
  | .replaceAll query _ =>
    !(query = []) && !(strCount query (d.content ++ ['\n']) = 0)
  | .convertEnc label => d.content.all (encodableChar (encodingCodec label))
  | _ => false

/-- The operations that load or successfully save the document. -/
def opClearsDirty (op : DocOp) : Bool :=
  match op with
  | .saveFile (some _) => true
  | .loadFresh _ _ _ => true
  | _ => false

/-! ### The session (tabs, closed stack, recent files) -/

/-- A snapshot pushed on `closed_documents` by `close_document`. -/
structure Snapshot where
  title : String
  content : List Char
  filePath : Option String
  encoding : String
deriving Repr, DecidableEq

/-- The session state of `NotepadApp`: the open documents keyed by tab id in
display order (`ttk.Notebook` appends tabs and the app never reorders them,
so display order is insertion order), the closed-tab stack, the recent
files, and a counter producing fresh tab ids. -/
structure Session where
  docs : List (Nat × Document)
  closedStack : List Snapshot
  recentFiles : List String
  nextId : Nat
deriving Repr, DecidableEq

/-- Look a document up by tab id. -/
def lookupDoc (s : Session) (i : Nat) : Option Document :=
  (s.docs.find? (fun p => p.1 = i)).map Prod.snd

/-- POSIX `os.path.basename`: the part after the last slash. -/
def basename (p : String) : String :=
  ((p.splitOn "/").getLastD p)

/-- `NotepadApp._document_display_name`. -/
def displayName (d : Document) : String :=
  match d.filePath with
  | some p => basename p
  | none => "Untitled"

/-- `NotepadApp._add_blank_document`: append a fresh blank tab. -/
def addBlankDocument (s : Session) : Session :=
  { s with docs := s.docs ++ [(s.nextId, blankDocument)], nextId := s.nextId + 1 }

/-- `NotepadApp._add_recent_file`: move-to-front, dedup, cap at ten. -/
def addRecentFile (p : String) (recent : List String) : List String :=
  (p :: recent.filter (fun q => q ≠ p)).take 10

/-- The dialog and filesystem outcomes consumed by one `close_document`
call: the `askyesnocancel` answer (`none` is Cancel) and, when a save is
requested, the path `file_ops.save_file` reports (`none` is a cancelled
dialog or an `OSError`). -/
structure ClosePrompt where
  shouldSave : Option Bool
  saveResult : Option String
deriving Repr, DecidableEq

/-- The unconditional part of `close_document` once the save prompt has been
resolved: push the snapshot of the (possibly just saved) document, remove
the tab, and create a blank document if the session became empty. -/
def removeAndMaybeBlank (s : Session) (i : Nat) (d : Document) : Session :=
  let snap : Snapshot :=
    { title := displayName d, content := d.content,
      filePath := d.filePath, encoding := d.encoding }
  let docs' := s.docs.filter (fun p => p.1 ≠ i)
  let s' := { s with docs := docs', closedStack := s.closedStack ++ [snap] }
  if docs'.isEmpty then addBlankDocument s' else s'

/-- `NotepadApp.close_document`.  A dirty document first raises the
three-way prompt: Cancel returns `False` at once; Yes runs `save_file`,
whose failure also returns `False` (in both failure cases nothing has been
mutated); otherwise the document — updated by a successful save — is
snapshotted onto `closed_documents` and removed, a blank tab replacing it
when it was the last one. -/
def closeDocument (s : Session) (i : Nat) (pr : ClosePrompt) : Bool × Session :=
  match lookupDoc s i with
  | none => (true, s)
  | some d =>
    if d.dirty then
      match pr.shouldSave with
      | none => (false, s)
      | some true =>
        match pr.saveResult with
        | none => (false, s)
        | some p =>
          let d' := { d with filePath := some p, dirty := false }
          let s' := { s with
            docs := s.docs.map (fun q => if q.1 = i then (q.1, d') else q),
            recentFiles := addRecentFile p s.recentFiles }
          (true, removeAndMaybeBlank s' i d')
      | some false => (true, removeAndMaybeBlank s i d)
    else (true, removeAndMaybeBlank s i d)

/-- The shared loop of the bulk close handlers (`close_all_tabs`,
`close_other_tabs`, `close_tabs_to_left`, `close_tabs_to_right`): walk a
pre-computed list of tabs, applying `close_document`, and return as soon as
one call reports `False`. -/
def closeSequence (prompts : Nat → ClosePrompt) : Session → List Nat → Session
  | s, [] => s
  | s, i :: rest =>
    let r := closeDocument s i (prompts i)
    if r.1 then closeSequence prompts r.2 rest else r.2

/-- `close_all_tabs`: every open tab, in order. -/
def closeAllTabs (prompts : Nat → ClosePrompt) (s : Session) : Session :=
  closeSequence prompts s (s.docs.map Prod.fst)

/-- `close_other_tabs`: every tab but the current one. -/
def closeOtherTabs (prompts : Nat → ClosePrompt) (s : Session) (current : Nat) : Session :=
  closeSequence prompts s ((s.docs.map Prod.fst).filter (fun j => j ≠ current))

/-- `close_tabs_to_left`: the tabs strictly before the current one. -/
def closeTabsToLeft (prompts : Nat → ClosePrompt) (s : Session) (current : Nat) : Session :=
  closeSequence prompts s ((s.docs.map Prod.fst).takeWhile (fun j => j ≠ current))

/-- `close_tabs_to_right`: the tabs strictly after the current one. -/
def closeTabsToRight (prompts : Nat → ClosePrompt) (s : Session) (current : Nat) : Session :=
  closeSequence prompts s (((s.docs.map Prod.fst).dropWhile (fun j => j ≠ current)).drop 1)

/-- `NotepadApp.duplicate_tab`: append a blank tab, insert the source's
buffer (the `<KeyRelease>`-bound change handler does not fire for
programmatic inserts), copy encoding and dirty flag; the clone's `file_path`
stays `None`. -/
def duplicateTab (s : Session) (src : Nat) : Session :=
  match lookupDoc s src with
  | none => s
  | some d =>
    { s with
      docs := s.docs ++ [(s.nextId,
        { content := d.content, filePath := none,
          dirty := d.dirty, encoding := d.encoding })],
      nextId := s.nextId + 1 }

/-- A buffer mutation (any `_apply_transform`-style command) addressed to
the document with tab id `i`. -/
def editDocContent (s : Session) (i : Nat) (f : List Char → List Char) : Session :=
  { s with docs := s.docs.map (fun p =>
      if p.1 = i then (p.1, { p.2 with content := f p.2.content, dirty := true }) else p) }

/-! ## Theorems -/

/-- C4: the `replace` operation on buffer `"foo foo baz"` with
`replace("foo", "bar")`.  The reported count is 2 as the specification
says, but because the handler reads the widget with `tk.END` — which
includes the automatic trailing newline — and writes the substituted string
back wholesale, the resulting buffer is `"bar bar baz\n"`, not the
`"bar bar baz"` the specification requires: every successful replace
appends one newline to the buffer. -/
theorem replaceDialog_gains_newline :
    replaceDialog "foo foo baz".data "foo".data "bar".data
      = ("bar bar baz\n".data, true, some 2) ∧
    "bar bar baz\n".data ≠ "bar bar baz".data := by
  constructor
  · decide
  · decide

/-- C9: `_move_line` is a no-op at the top edge (the guard `target_line <
1`), but at the bottom edge it is not: with the cursor on the last line of
buffer `"a\nb"`, move-line-down deletes the line's characters (Tk protects
the automatic final newline) and re-appends them together with that newline
at the rounded-to-`end` target index, leaving `"a\nb\n"` — the buffer grew
by one newline and was marked dirty, while the claim demands it unchanged. -/
theorem moveLine_edge_behaviour :
    (∀ buf : List Char, moveLine buf 1 (-1) = (buf, false)) ∧
    moveLine "a\nb".data 2 1 = ("a\nb\n".data, true) ∧
    "a\nb\n".data ≠ "a\nb".data := by
  refine ⟨fun buf => ?_, by decide, by decide⟩
  simp [moveLine]

/-- C5: `_detect_encoding` is a total function of the byte content alone.
A leading UTF-8 / UTF-16 LE / UTF-16 BE byte-order mark yields the
corresponding label and codec; otherwise the result is `("UTF-8", "utf-8")`
exactly when the bytes are strict UTF-8, and `("ANSI", "cp1252")` if not. -/
theorem detectEncoding_spec : ∀ raw : List Nat,
    (bomUTF8.isPrefixOf raw = true →
      detectEncoding raw = ("UTF-8-BOM", "utf-8-sig")) ∧
    (bomUTF16LE.isPrefixOf raw = true →
      detectEncoding raw = ("UTF-16 LE", "utf-16-le")) ∧
    (bomUTF16BE.isPrefixOf raw = true →
      detectEncoding raw = ("UTF-16 BE", "utf-16-be")) ∧
    (bomUTF8.isPrefixOf raw = false → bomUTF16LE.isPrefixOf raw = false →
      bomUTF16BE.isPrefixOf raw = false →
      ((utf8Valid raw = true → detectEncoding raw = ("UTF-8", "utf-8")) ∧
       (utf8Valid raw = false → detectEncoding raw = ("ANSI", "cp1252")))) := by
  intro raw
  refine ⟨fun h8 => ?_, fun hle => ?_, fun hbe => ?_, fun h8 hle hbe => ⟨fun hv => ?_, fun hv => ?_⟩⟩
  · simp [detectEncoding, h8]
  · have h8 : bomUTF8.isPrefixOf raw = false := by
      cases raw with
      | nil => simp [bomUTF16LE, List.isPrefixOf] at hle
      | cons b bs =>
        simp only [bomUTF16LE, List.isPrefixOf, Bool.and_eq_true, beq_iff_eq] at hle
        simp [bomUTF8, List.isPrefixOf, ← hle.1]
    simp [detectEncoding, h8, hle]
  · have h8 : bomUTF8.isPrefixOf raw = false := by
      cases raw with
      | nil => simp [bomUTF16BE, List.isPrefixOf] at hbe
      | cons b bs =>
        simp only [bomUTF16BE, List.isPrefixOf, Bool.and_eq_true, beq_iff_eq] at hbe
        simp [bomUTF8, List.isPrefixOf, ← hbe.1]
    have hle : bomUTF16LE.isPrefixOf raw = false := by
      cases raw with
      | nil => simp [bomUTF16BE, List.isPrefixOf] at hbe
      | cons b bs =>
        simp only [bomUTF16BE, List.isPrefixOf, Bool.and_eq_true, beq_iff_eq] at hbe
        simp [bomUTF16LE, List.isPrefixOf, ← hbe.1]
    simp [detectEncoding, h8, hle, hbe]
  · simp [detectEncoding, h8, hle, hbe, hv]
  · simp [detectEncoding, h8, hle, hbe, hv]

/-- Witness for C5 at concrete byte strings: each BOM, a plain ASCII file,
and a lone `0xE9` byte (valid cp1252, invalid UTF-8). -/
theorem detectEncoding_spec_witness :
    detectEncoding [0xEF, 0xBB, 0xBF, 0x41] = ("UTF-8-BOM", "utf-8-sig") ∧
    detectEncoding [0xFF, 0xFE, 0x41, 0x00] = ("UTF-16 LE", "utf-16-le") ∧
    detectEncoding [0xFE, 0xFF, 0x00, 0x41] = ("UTF-16 BE", "utf-16-be") ∧
    detectEncoding [0x41, 0x42] = ("UTF-8", "utf-8") ∧
    detectEncoding [0xE9] = ("ANSI", "cp1252") :=
  ⟨(detectEncoding_spec _).1 (by decide),
   (detectEncoding_spec _).2.1 (by decide),
   (detectEncoding_spec _).2.2.1 (by decide),
   ((detectEncoding_spec _).2.2.2 (by decide) (by decide) (by decide)).1 (by decide),
   ((detectEncoding_spec _).2.2.2 (by decide) (by decide) (by decide)).2 (by decide)⟩

/-- C7: `convert_encoding(label)` shows the encoding-error dialog exactly
when some character of the buffer is not representable in the target codec,
and in that case the whole document — content, encoding label, dirty flag
(and file path) — is left untouched. -/
theorem convertEncoding_error_iff : ∀ (label : String) (d : Document),
    ((convertEncoding label d).2 = true ↔
      ∃ c ∈ d.content, encodableChar (encodingCodec label) c = false) ∧
    ((convertEncoding label d).2 = true → (convertEncoding label d).1 = d) := by
  intro label d
  by_cases hall : d.content.all (encodableChar (encodingCodec label)) = true
  · have hforall := List.all_eq_true.mp hall
    constructor
    · simp only [convertEncoding, pyEncodeDecode, hall, if_true]
      constructor
      · intro h
        exact absurd h (by simp)
      · rintro ⟨c, hc, hfalse⟩
        exact absurd (hforall c hc) (by simp [hfalse])
    · intro h
      exact absurd h (by simp [convertEncoding, pyEncodeDecode, hall])
  · have hex : ∃ c ∈ d.content, encodableChar (encodingCodec label) c = false := by
      rcases List.all_eq_false.mp (Bool.eq_false_iff.mpr hall) with ⟨c, hc, hfalse⟩
      exact ⟨c, hc, by simpa using hfalse⟩
    have hnone : pyEncodeDecode (encodingCodec label) d.content = none := by
      simp [pyEncodeDecode, hall]
    have h2 : (convertEncoding label d).2 = true := by
      simp [convertEncoding, hnone]
    constructor
    · exact ⟨fun _ => hex, fun _ => h2⟩
    · intro _
      simp [convertEncoding, hnone]

/-- Witness for C7: converting the buffer `"aα"` to ANSI fails (`'α'` is
not in the cp1252 table) and leaves the document exactly as it was. -/
theorem convertEncoding_error_iff_witness :
    (convertEncoding "ANSI"
        { content := "aα".data, filePath := none, dirty := false, encoding := "UTF-8" }).1
      = { content := "aα".data, filePath := none, dirty := false, encoding := "UTF-8" } :=
  (convertEncoding_error_iff "ANSI" _).2 (by decide)

/-- C1: over the modelled per-document operations, the dirty flag becomes
true after every operation that mutates the buffer (typed edits and pastes,
every `_apply_transform` command, a matching `replace`, a successful
`convert_encoding`), becomes false after a successful save or a fresh load,
and is cleared by nothing else: any transition of `dirty` from true to
false is a successful save or a fresh load. -/
theorem dirty_flag_invariant : ∀ (op : DocOp) (d : Document),
    (opMutates op d = true → (applyDocOp op d).dirty = true) ∧
    (opClearsDirty op = true → (applyDocOp op d).dirty = false) ∧
    (d.dirty = true → (applyDocOp op d).dirty = false → opClearsDirty op = true) := by
  intro op d
  cases op with
  | typedEdit pos ins => simp [applyDocOp, opMutates, opClearsDirty]
  | applyTransform a b f => simp [applyDocOp, opMutates, opClearsDirty]
  | replaceAll query repl =>
    by_cases hq : query = []
    · simp [applyDocOp, opMutates, opClearsDirty, replaceDialog, hq]
    · by_cases hc : strCount query (d.content ++ ['\n']) = 0
      · simp [applyDocOp, opMutates, opClearsDirty, replaceDialog, hq, hc]
      · simp [applyDocOp, opMutates, opClearsDirty, replaceDialog, hq, hc]
  | convertEnc label =>
    by_cases hall : d.content.all (encodableChar (encodingCodec label)) = true
    · simp [applyDocOp, opMutates, opClearsDirty, convertEncoding, pyEncodeDecode, hall]
    · simp [applyDocOp, opMutates, opClearsDirty, convertEncoding, pyEncodeDecode, hall,
        Bool.eq_false_iff.mpr hall]
  | saveFile outcome => cases outcome <;> simp [applyDocOp, opMutates, opClearsDirty]
  | loadFresh content path enc => simp [applyDocOp, opMutates, opClearsDirty]
  | setEnc label => simp [applyDocOp, opMutates, opClearsDirty]
  | moveCursor => simp [applyDocOp, opMutates, opClearsDirty]

/-- Witness for C1: a keystroke on a clean blank document sets the dirty
flag; a successful save of a dirty document clears it, and that clearing
operation is indeed in the save/load class. -/
theorem dirty_flag_invariant_witness :
    (applyDocOp (.typedEdit 0 ['x']) blankDocument).dirty = true ∧
    (applyDocOp (.saveFile (some "a.txt")) { blankDocument with dirty := true }).dirty = false ∧
    opClearsDirty (.saveFile (some "a.txt")) = true :=
  ⟨(dirty_flag_invariant (.typedEdit 0 ['x']) blankDocument).1 (by decide),
   (dirty_flag_invariant (.saveFile (some "a.txt")) { blankDocument with dirty := true }).2.1 rfl,
   (dirty_flag_invariant (.saveFile (some "a.txt")) { blankDocument with dirty := true }).2.2
     rfl (by decide)⟩

/-- The snapshot-push/remove/backfill step always leaves at least one open
document: either some other tab survived the `filter`, or the blank tab
created by `_add_blank_document` is there. -/
theorem removeAndMaybeBlank_docs_ne_nil (s : Session) (i : Nat) (d : Document) :
    (removeAndMaybeBlank s i d).docs ≠ [] := by
  simp only [removeAndMaybeBlank]
  split
  · simp [addBlankDocument]
  · next h =>
    simpa [List.isEmpty_iff] using h

/-- One `close_document` call never leaves the session without documents. -/
theorem closeDocument_preserves_nonempty (s : Session) (i : Nat) (pr : ClosePrompt)
    (h : s.docs ≠ []) : ((closeDocument s i pr).2).docs ≠ [] := by
  unfold closeDocument
  cases hl : lookupDoc s i with
  | none => simpa using h
  | some d =>
    cases hd : d.dirty with
    | false => simpa [hd] using removeAndMaybeBlank_docs_ne_nil s i d
    | true =>
      cases hs : pr.shouldSave with
      | none => simpa [hd, hs] using h
      | some b =>
        cases b with
        | false => simpa [hd, hs] using removeAndMaybeBlank_docs_ne_nil s i d
        | true =>
          cases hr : pr.saveResult with
          | none => simpa [hd, hs, hr] using h
          | some p => simpa [hd, hs, hr] using removeAndMaybeBlank_docs_ne_nil _ i _

/-- A bulk-close loop never leaves the session without documents. -/
theorem closeSequence_preserves_nonempty (prompts : Nat → ClosePrompt) :
    ∀ (ids : List Nat) (s : Session), s.docs ≠ [] →
      (closeSequence prompts s ids).docs ≠ [] := by
  intro ids
  induction ids with
  | nil => intro s h; simpa [closeSequence] using h
  | cons i rest ih =>
    intro s h
    simp only [closeSequence]
    split
    · exact ih _ (closeDocument_preserves_nonempty s i _ h)
    · exact closeDocument_preserves_nonempty s i _ h

/-- C2: the session always keeps at least one document — a single
`close_document` and every bulk-close loop preserve non-emptiness — and
closing the one remaining document (when the close goes through) leaves
exactly one fresh blank document. -/
theorem session_never_empty : ∀ (s : Session) (i : Nat) (pr : ClosePrompt),
    (s.docs ≠ [] → ((closeDocument s i pr).2).docs ≠ []) ∧
    (∀ (prompts : Nat → ClosePrompt) (ids : List Nat),
      s.docs ≠ [] → (closeSequence prompts s ids).docs ≠ []) ∧
    (∀ d, s.docs = [(i, d)] → (closeDocument s i pr).1 = true →
      ((closeDocument s i pr).2).docs = [(s.nextId, blankDocument)]) := by
  intro s i pr
  refine ⟨closeDocument_preserves_nonempty s i pr,
          fun prompts ids => closeSequence_preserves_nonempty prompts ids s,
          fun d hdocs => ?_⟩
  have hl : lookupDoc s i = some d := by
    simp [lookupDoc, hdocs]
  unfold closeDocument
  rw [hl]
  cases hd : d.dirty with
  | false =>
    intro _
    simp [hd, removeAndMaybeBlank, addBlankDocument, hdocs]
  | true =>
    cases hs : pr.shouldSave with
    | none => intro hfalse; simp [hd, hs] at hfalse
    | some b =>
      cases b with
      | false =>
        intro _
        simp [hd, hs, removeAndMaybeBlank, addBlankDocument, hdocs]
      | true =>
        cases hr : pr.saveResult with
        | none => intro hfalse; simp [hd, hs, hr] at hfalse
        | some p =>
          intro _
          simp [hd, hs, hr, removeAndMaybeBlank, addBlankDocument, hdocs]

/-- Witness for C2: closing the single dirty document with
Discard-and-close leaves exactly the fresh blank tab. -/
theorem session_never_empty_witness :
    ((closeDocument
        { docs := [(0, { content := "hi".data, filePath := none,
                         dirty := true, encoding := "UTF-8" })],
          closedStack := [], recentFiles := [], nextId := 1 }
        0 { shouldSave := some false, saveResult := none }).2).docs
      = [(1, blankDocument)] :=
  (session_never_empty _ 0 _).2.2 _ rfl (by decide)

/-- C3: Cancel in the unsaved-changes prompt makes `close_document` return
`False` with the whole session unchanged (no snapshot pushed, no tab
removed), and every bulk-close loop returns as soon as a `close_document`
call yields `False`, closing none of the remaining tabs; in particular a
Cancel at the head of the remaining list leaves the session exactly as it
was. -/
theorem close_cancel_aborts : ∀ (s : Session) (prompts : Nat → ClosePrompt)
    (i : Nat) (rest : List Nat),
    (∀ d, lookupDoc s i = some d → d.dirty = true →
      (prompts i).shouldSave = none → closeDocument s i (prompts i) = (false, s)) ∧
    ((closeDocument s i (prompts i)).1 = false →
      closeSequence prompts s (i :: rest) = (closeDocument s i (prompts i)).2) ∧
    (∀ d, lookupDoc s i = some d → d.dirty = true →
      (prompts i).shouldSave = none → closeSequence prompts s (i :: rest) = s) := by
  intro s prompts i rest
  have hstop : (closeDocument s i (prompts i)).1 = false →
      closeSequence prompts s (i :: rest) = (closeDocument s i (prompts i)).2 := by
    intro h
    simp [closeSequence, h]
  have hcancel : ∀ d, lookupDoc s i = some d → d.dirty = true →
      (prompts i).shouldSave = none → closeDocument s i (prompts i) = (false, s) := by
    intro d hl hd hs
    simp [closeDocument, hl, hd, hs]
  refine ⟨hcancel, hstop, fun d hl hd hs => ?_⟩
  rw [hstop (by rw [hcancel d hl hd hs]), hcancel d hl hd hs]

/-- Witness for C3: a session of two documents, the first dirty; answering
Cancel on it makes `close_all_tabs`-style iteration stop with the session
untouched. -/
theorem close_cancel_aborts_witness :
    closeSequence (fun _ => { shouldSave := none, saveResult := none })
      { docs := [(0, { content := "x".data, filePath := none,
                       dirty := true, encoding := "UTF-8" }),
                 (1, blankDocument)],
        closedStack := [], recentFiles := [], nextId := 2 }
      [0, 1]
      = { docs := [(0, { content := "x".data, filePath := none,
                         dirty := true, encoding := "UTF-8" }),
                   (1, blankDocument)],
          closedStack := [], recentFiles := [], nextId := 2 } :=
  (close_cancel_aborts _ (fun _ => { shouldSave := none, saveResult := none }) 0 [1]).2.2
    { content := "x".data, filePath := none, dirty := true, encoding := "UTF-8" }
    (by decide) rfl rfl

/-- Updating the document stored under tab id `i` (as `editDocContent`
does) does not affect which entry a lookup for a different id `j` finds. -/
theorem find?_map_updateId (i j : Nat) (f : List Char → List Char) (hij : j ≠ i) :
    ∀ l : List (Nat × Document),
    (l.map (fun p => if p.1 = i then
        (p.1, { p.2 with content := f p.2.content, dirty := true }) else p)).find?
        (fun p => p.1 = j)
      = l.find? (fun p => p.1 = j) := by
  intro l
  induction l with
  | nil => rfl
  | cons p t ih =>
    rw [List.map_cons]
    by_cases hpi : p.1 = i
    · have hpj : ¬p.1 = j := fun h => hij (h ▸ hpi ▸ rfl)
      rw [if_pos hpi, List.find?_cons_of_neg _ (by simpa [hpi] using Ne.symm hij),
        List.find?_cons_of_neg _ (by simpa using hpj), ih]
    · rw [if_neg hpi]
      by_cases hpj : p.1 = j
      · rw [List.find?_cons_of_pos _ (by simpa using hpj),
          List.find?_cons_of_pos _ (by simpa using hpj)]
      · rw [List.find?_cons_of_neg _ (by simpa using hpj),
          List.find?_cons_of_neg _ (by simpa using hpj), ih]

/-- C8: `duplicate_tab` appends a new document whose buffer, encoding and
dirty flag equal the source's at duplication time and whose `file_path` is
`None`; the two tabs own separate buffers, so a later mutation of the clone
leaves the source exactly as it was and vice versa.  The freshness
hypothesis says the new tab id is not already in use (tab ids are unique in
the running application). -/
theorem duplicateTab_clone : ∀ (s : Session) (i : Nat) (d : Document),
    lookupDoc s i = some d → (∀ p ∈ s.docs, p.1 ≠ s.nextId) →
    (lookupDoc (duplicateTab s i) s.nextId
        = some { content := d.content, filePath := none,
                 dirty := d.dirty, encoding := d.encoding }) ∧
    (lookupDoc (duplicateTab s i) i = some d) ∧
    (∀ f, lookupDoc (editDocContent (duplicateTab s i) s.nextId f) i = some d) ∧
    (∀ f, lookupDoc (editDocContent (duplicateTab s i) i f) s.nextId
        = some { content := d.content, filePath := none,
                 dirty := d.dirty, encoding := d.encoding }) := by
  intro s i d hl hfresh
  have hfind : s.docs.find? (fun p => p.1 = i) = some (i, d) := by
    unfold lookupDoc at hl
    cases hf : s.docs.find? (fun p => p.1 = i) with
    | none => rw [hf] at hl; simp at hl
    | some p0 =>
      obtain ⟨a, b⟩ := p0
      rw [hf] at hl
      have ha : a = i := by simpa using List.find?_some hf
      have hb : b = d := by simpa using hl
      rw [ha, hb]
  have hmem : (i, d) ∈ s.docs := List.mem_of_find?_eq_some hfind
  have hic : i ≠ s.nextId := hfresh _ hmem
  have hnone : s.docs.find? (fun p => p.1 = s.nextId) = none :=
    List.find?_eq_none.mpr (fun p hp => by simpa using hfresh p hp)
  have hdocs : (duplicateTab s i).docs
      = s.docs ++ [(s.nextId, { content := d.content, filePath := none,
                                dirty := d.dirty, encoding := d.encoding })] := by
    simp [duplicateTab, hl]
  have h1 : lookupDoc (duplicateTab s i) s.nextId
      = some { content := d.content, filePath := none,
               dirty := d.dirty, encoding := d.encoding } := by
    unfold lookupDoc
    rw [hdocs, List.find?_append, hnone]
    simp
  have h2 : lookupDoc (duplicateTab s i) i = some d := by
    unfold lookupDoc
    rw [hdocs, List.find?_append, hfind]
    rfl
  refine ⟨h1, h2, fun f => ?_, fun f => ?_⟩
  · simp only [editDocContent, lookupDoc]
    rw [find?_map_updateId s.nextId i f hic]
    simpa [lookupDoc] using h2
  · simp only [editDocContent, lookupDoc]
    rw [find?_map_updateId i s.nextId f (Ne.symm hic)]
    simpa [lookupDoc] using h1

/-- Witness for C8: duplicating a saved, clean document in a one-tab
session; the clone matches but has no file path, and editing either tab
leaves the other's stored state untouched. -/
theorem duplicateTab_clone_witness :
    (lookupDoc
        (duplicateTab
          { docs := [(0, { content := "hi".data, filePath := some "/tmp/a.txt",
                           dirty := false, encoding := "ANSI" })],
            closedStack := [], recentFiles := [], nextId := 1 } 0) 1
      = some { content := "hi".data, filePath := none,
               dirty := false, encoding := "ANSI" }) ∧
    (∀ f, lookupDoc
        (editDocContent
          (duplicateTab
            { docs := [(0, { content := "hi".data, filePath := some "/tmp/a.txt",
                             dirty := false, encoding := "ANSI" })],
              closedStack := [], recentFiles := [], nextId := 1 } 0) 1 f) 0
      = some { content := "hi".data, filePath := some "/tmp/a.txt",
               dirty := false, encoding := "ANSI" }) :=
  ⟨(duplicateTab_clone _ 0
      { content := "hi".data, filePath := some "/tmp/a.txt",
        dirty := false, encoding := "ANSI" } (by decide) (by decide)).1,
   (duplicateTab_clone _ 0
      { content := "hi".data, filePath := some "/tmp/a.txt",
        dirty := false, encoding := "ANSI" } (by decide) (by decide)).2.2.1⟩

/-! ### Lemmas about `splitlines`, `joinLines` and `dedupLines` -/

/-- Unfolding `splitlines` at a character that is not a line boundary. -/
theorem splitlines_cons_not_boundary (c : Char) (l : List Char)
    (hc : isLineBoundary c = false) :
    splitlines (c :: l) =
      match splitlines l with
      | [] => [[c]]
      | line :: more => (c :: line) :: more := by
  have hcr : ¬c = '\r' := by
    intro h
    rw [h] at hc
    simp [isLineBoundary] at hc
  rw [splitlines.eq_def]
  simp [hcr, hc]

/-- Unfolding `splitlines` at a newline. -/
theorem splitlines_cons_nl (l : List Char) :
    splitlines ('\n' :: l) = [] :: splitlines l := by
  rw [splitlines.eq_def]
  simp [isLineBoundary]

/-- Splitting `l ++ "\n" ++ t` where `l` contains no boundary character
peels off `l` as the first line. -/
theorem splitlines_append_nl (l : List Char) :
    ∀ t : List Char, (∀ c ∈ l, isLineBoundary c = false) →
      splitlines (l ++ '\n' :: t) = l :: splitlines t := by
  induction l with
  | nil => intro t _; simpa using splitlines_cons_nl t
  | cons c l' ih =>
    intro t h
    have hc : isLineBoundary c = false := h c (List.mem_cons_self c l')
    rw [List.cons_append,
      splitlines_cons_not_boundary c _ hc,
      ih t (fun x hx => h x (List.mem_cons_of_mem _ hx))]

/-- A non-empty boundary-free string is a single line. -/
theorem splitlines_eq_singleton (l : List Char) (hne : l ≠ [])
    (h : ∀ c ∈ l, isLineBoundary c = false) : splitlines l = [l] := by
  induction l with
  | nil => exact absurd rfl hne
  | cons c l' ih =>
    have hc : isLineBoundary c = false := h c (List.mem_cons_self c l')
    rw [splitlines_cons_not_boundary c _ hc]
    cases hl' : l' with
    | nil => simp [splitlines]
    | cons c2 t =>
      rw [← hl', ih (by simp [hl']) (fun x hx => h x (List.mem_cons_of_mem _ hx))]

/-- Every piece produced by `splitlines` is free of boundary characters. -/
theorem splitlines_boundary_free :
    ∀ s : List Char, ∀ l ∈ splitlines s, ∀ c ∈ l, isLineBoundary c = false := by
  intro s
  induction s with
  | nil => intro l hl; simp [splitlines] at hl
  | cons c rest ih =>
    intro l hl c' hc'
    by_cases hcr : c = '\r'
    · subst hcr
      cases rest with
      | nil =>
        rw [splitlines.eq_def] at hl
        simp at hl
        simp [hl] at hc'
      | cons c2 rest2 =>
        by_cases hc2 : c2 = '\n'
        · subst hc2
          have : splitlines ('\r' :: '\n' :: rest2) = [] :: splitlines rest2 := by
            rw [splitlines.eq_def]
            simp
          rw [this] at hl
          rcases List.mem_cons.mp hl with rfl | hl'
          · simp at hc'
          · exact ih l (by rw [splitlines_cons_nl]; exact List.mem_cons_of_mem _ hl') c' hc'
        · have : splitlines ('\r' :: c2 :: rest2) = [] :: splitlines (c2 :: rest2) := by
            rw [splitlines.eq_def]
            simp [hc2]
          rw [this] at hl
          rcases List.mem_cons.mp hl with rfl | hl'
          · simp at hc'
          · exact ih l hl' c' hc'
    · by_cases hb : isLineBoundary c = true
      · have : splitlines (c :: rest) = [] :: splitlines rest := by
          rw [splitlines.eq_def]
          simp [hcr, hb]
        rw [this] at hl
        rcases List.mem_cons.mp hl with rfl | hl'
        · simp at hc'
        · exact ih l hl' c' hc'
      · have hb' : isLineBoundary c = false := by simpa using hb
        rw [splitlines_cons_not_boundary c _ hb'] at hl
        cases hsp : splitlines rest with
        | nil =>
          rw [hsp] at hl
          simp at hl
          subst hl
          rcases List.mem_singleton.mp hc' with rfl
          exact hb'
        | cons line more =>
          rw [hsp] at hl
          rcases List.mem_cons.mp hl with rfl | hl'
          · rcases List.mem_cons.mp hc' with rfl | hc''
            · exact hb'
            · exact ih line (by rw [hsp]; exact List.mem_cons_self _ _) c' hc''
          · exact ih l (by rw [hsp]; exact List.mem_cons_of_mem _ hl') c' hc'

/-- Unfolding `joinLines` on a list of two or more lines. -/
theorem joinLines_cons_cons (l l2 : List Char) (rest : List (List Char)) :
    joinLines (l :: l2 :: rest) = l ++ '\n' :: joinLines (l2 :: rest) := rfl

/-- Splitting the `"\n"`-join of boundary-free lines recovers the lines,
except that one trailing empty line is eaten (Python `splitlines` produces
no final empty piece after a trailing newline). -/
theorem splitlines_joinLines :
    ∀ d : List (List Char), (∀ l ∈ d, ∀ c ∈ l, isLineBoundary c = false) →
      splitlines (joinLines d) =
        if d.getLast? = some [] then d.dropLast else d := by
  intro d
  induction d with
  | nil => intro _; simp [joinLines, splitlines]
  | cons l d' ih =>
    intro h
    cases d' with
    | nil =>
      by_cases hl : l = []
      · subst hl; simp [joinLines, splitlines]
      · rw [show joinLines [l] = l from rfl,
          splitlines_eq_singleton l hl (h l (List.mem_cons_self _ _))]
        simp [hl]
    | cons l2 t =>
      rw [joinLines_cons_cons,
        splitlines_append_nl l _ (h l (List.mem_cons_self _ _)),
        ih (fun x hx => h x (List.mem_cons_of_mem _ hx))]
      rw [List.getLast?_cons_cons]
      by_cases hlast : (l2 :: t).getLast? = some []
      · simp only [hlast, if_true]
        rfl
      · simp only [hlast, if_false]

/-- Everything `dedupLines` keeps came from the input list. -/
theorem dedupLines_subset :
    ∀ (xs seen : List (List Char)) (l : List Char),
      l ∈ dedupLines seen xs → l ∈ xs := by
  intro xs
  induction xs with
  | nil => intro seen l hl; simp [dedupLines] at hl
  | cons x t ih =>
    intro seen l hl
    by_cases hx : x ∈ seen
    · simp only [dedupLines, if_pos hx] at hl
      exact List.mem_cons_of_mem _ (ih seen l hl)
    · simp only [dedupLines, if_neg hx] at hl
      rcases List.mem_cons.mp hl with rfl | hl'
      · exact List.mem_cons_self _ _
      · exact List.mem_cons_of_mem _ (ih _ l hl')

/-- The output of `dedupLines` has no duplicates and avoids the `seen`
accumulator. -/
theorem dedupLines_nodup :
    ∀ (xs seen : List (List Char)),
      (dedupLines seen xs).Nodup ∧ ∀ l ∈ dedupLines seen xs, l ∉ seen := by
  intro xs
  induction xs with
  | nil => intro seen; simp [dedupLines]
  | cons x t ih =>
    intro seen
    by_cases hx : x ∈ seen
    · simpa [dedupLines, hx] using ih seen
    · simp only [dedupLines, if_neg hx]
      refine ⟨?_, ?_⟩
      · rw [List.nodup_cons]
        refine ⟨fun hmem => ?_, (ih (x :: seen)).1⟩
        exact (ih (x :: seen)).2 x hmem (List.mem_cons_self x seen)
      · intro l hl
        rcases List.mem_cons.mp hl with rfl | hl'
        · exact hx
        · exact fun hseen =>
            (ih (x :: seen)).2 l hl' (List.mem_cons_of_mem _ hseen)

/-- On a duplicate-free list that avoids the accumulator, `dedupLines`
changes nothing. -/
theorem dedupLines_eq_self :
    ∀ (xs seen : List (List Char)), xs.Nodup → (∀ l ∈ xs, l ∉ seen) →
      dedupLines seen xs = xs := by
  intro xs
  induction xs with
  | nil => intro seen _ _; rfl
  | cons x t ih =>
    intro seen hnd hout
    have hx : x ∉ seen := hout x (List.mem_cons_self _ _)
    rw [List.nodup_cons] at hnd
    simp only [dedupLines, if_neg hx]
    rw [ih (x :: seen) hnd.2]
    intro l hl
    rcases hnd with ⟨hxt, _⟩
    rintro hmem
    rcases List.mem_cons.mp hmem with rfl | hseen
    · exact hxt hl
    · exact hout l (List.mem_cons_of_mem _ hl) hseen

/-- Stripping whitespace from both ends does not change the first
character left after stripping it from the front: the right strip can never
remove the (non-whitespace) head. -/
theorem pyStrip_head (l : List Char) :
    (pyStrip l).head? = (l.dropWhile pyIsSpace).head? := by
  unfold pyStrip
  cases hm : l.dropWhile pyIsSpace with
  | nil => simp
  | cons c rest =>
    have hc : pyIsSpace c = false := by
      have haux : ∀ m : List Char, m.dropWhile pyIsSpace = c :: rest →
          pyIsSpace c = false := by
        intro m
        induction m with
        | nil => intro hm2; simp at hm2
        | cons a m' ih =>
          intro hm2
          rw [List.dropWhile_cons] at hm2
          by_cases ha : pyIsSpace a = true
          · rw [if_pos ha] at hm2
            exact ih hm2
          · rw [if_neg ha] at hm2
            obtain ⟨rfl, -⟩ := List.cons.inj hm2
            simpa using ha
      exact haux l hm
    rw [List.reverse_cons, List.dropWhile_append]
    by_cases he : (rest.reverse.dropWhile pyIsSpace).isEmpty = true
    · rw [if_pos he]
      simp [List.dropWhile_cons, hc]
    · rw [if_neg he]
      simp

/-- Blankness characterised: `line.strip()` is empty exactly when the line
consists of whitespace only. -/
theorem isBlankLine_all (l : List Char) :
    isBlankLine l = true ↔ l.all pyIsSpace = true := by
  unfold isBlankLine
  rw [decide_eq_true_iff]
  have h1 : pyStrip l = [] ↔ l.dropWhile pyIsSpace = [] := by
    constructor
    · intro h
      have hh := pyStrip_head l
      rw [h] at hh
      exact List.head?_eq_none_iff.mp hh.symm
    · intro h
      unfold pyStrip
      rw [h]
      rfl
  rw [h1, List.dropWhile_eq_nil_iff, List.all_eq_true]

/-- The toggle test `line.strip().startswith("#")` holds exactly when the
first non-whitespace character of the line is `#`. -/
theorem stripStartsHash_head (l : List Char) :
    stripStartsHash l = true ↔ (l.dropWhile pyIsSpace).head? = some '#' := by
  rw [← pyStrip_head]
  unfold stripStartsHash
  cases hs : pyStrip l with
  | nil => simp
  | cons c rest => simp

/-- C10 counterexample: the `_unique` transform of `unique_lines` is not
idempotent.  On `"a\n\n"` the lines are `["a", ""]` (already distinct), so
one application returns `"a\n"`; but `splitlines` of `"a\n"` is just
`["a"]` — the trailing empty line is eaten — so a second application
returns `"a"`. -/
theorem uniqueLines_not_idempotent :
    uniqueLines (uniqueLines "a\n\n".data) ≠ uniqueLines "a\n\n".data ∧
    uniqueLines "a\n\n".data = "a\n".data ∧
    uniqueLines "a\n".data = "a".data := by
  refine ⟨?_, by decide, by decide⟩
  decide

/-- C10 amended: the de-duplication transform is idempotent on every string
whose de-duplicated line list does not end in an empty line while having at
least two lines (equivalently: whenever its output does not end in a
newline).  In the excluded case the second application just drops the final
empty line, as the counterexample shows. -/
theorem uniqueLines_idempotent :
    ∀ s : List Char,
    ¬(2 ≤ (dedupLines [] (splitlines s)).length ∧
        (dedupLines [] (splitlines s)).getLast? = some []) →
    uniqueLines (uniqueLines s) = uniqueLines s := by
  intro s hH
  have hbf : ∀ l ∈ dedupLines [] (splitlines s), ∀ c ∈ l, isLineBoundary c = false :=
    fun l hl => splitlines_boundary_free s l (dedupLines_subset _ _ _ hl)
  have hnd : (dedupLines [] (splitlines s)).Nodup := (dedupLines_nodup _ _).1
  by_cases hlast : (dedupLines [] (splitlines s)).getLast? = some []
  · have hlen : (dedupLines [] (splitlines s)).length < 2 := by
      by_contra hge
      exact hH ⟨by omega, hlast⟩
    have hsingle : dedupLines [] (splitlines s) = [[]] := by
      cases hd : dedupLines [] (splitlines s) with
      | nil => rw [hd] at hlast; simp at hlast
      | cons a t =>
        cases t with
        | nil =>
          rw [hd] at hlast
          simp at hlast
          rw [hlast]
        | cons b t' =>
          rw [hd] at hlen
          simp at hlen
          exact absurd hlen (by omega)
    show uniqueLines (uniqueLines s) = uniqueLines s
    unfold uniqueLines
    rw [hsingle]
    rfl
  · have hsplit : splitlines (joinLines (dedupLines [] (splitlines s)))
        = dedupLines [] (splitlines s) := by
      rw [splitlines_joinLines _ hbf, if_neg hlast]
    show uniqueLines (uniqueLines s) = uniqueLines s
    unfold uniqueLines
    rw [hsplit, dedupLines_eq_self _ [] hnd (by simp)]

/-- Witness for C10: on `"b\na\nb"` (whose distinct lines are `["b", "a"]`,
not ending in an empty line) de-duplication is idempotent. -/
theorem uniqueLines_idempotent_witness :
    uniqueLines (uniqueLines "b\na\nb".data) = uniqueLines "b\na\nb".data :=
  uniqueLines_idempotent "b\na\nb".data (by decide)

/-- C6 counterexample: on the operand `"# a"` every non-blank line starts
with `#`, so the claim predicts that the leading `"# "` is removed, giving
`"a"`; the code's `line.replace("#", "", 1)` only removes the `#` character
and keeps the space, giving `" a"`. -/
theorem toggleComment_counterexample :
    toggleComment "# a".data = " a".data ∧ " a".data ≠ "a".data := by
  constructor
  · decide
  · decide

/-- C6 amended: when every non-blank line of the operand has `#` as its
first non-whitespace character, `toggle_comment` removes the first `#`
character of each such line, keeping everything else including any space
that follows the `#`; otherwise it prefixes `"# "` to every non-blank line.
Blank (whitespace-only) lines are never changed.  The last two parts pin
down the predicates: a removed line is `pre ++ "#" ++ post ↦ pre ++ post`
for the `#`-free prefix `pre`, the toggle test looks at the first
non-whitespace character, and blankness means all-whitespace. -/
theorem toggleComment_spec :
    ∀ s : List Char,
    (allNonBlankHash (splitlines s) = true →
      toggleComment s = joinLines ((splitlines s).map
        (fun l => if stripStartsHash l then removeFirstHash l else l))) ∧
    (allNonBlankHash (splitlines s) = false →
      toggleComment s = joinLines ((splitlines s).map
        (fun l => if isBlankLine l then l else '#' :: ' ' :: l))) ∧
    (∀ pre post : List Char, '#' ∉ pre →
      removeFirstHash (pre ++ '#' :: post) = pre ++ post) ∧
    (∀ l : List Char, stripStartsHash l = true ↔
      (l.dropWhile pyIsSpace).head? = some '#') ∧
    (∀ l : List Char, isBlankLine l = true ↔ l.all pyIsSpace = true) := by
  intro s
  refine ⟨fun h => ?_, fun h => ?_, ?_, ?_, ?_⟩
  · simp [toggleComment, toggleCommentLines, h]
  · simp [toggleComment, toggleCommentLines, h]
  · intro pre post hpre
    induction pre with
    | nil => simp [removeFirstHash]
    | cons c pre' ih =>
      have hc : ¬c = '#' := fun h => hpre (h ▸ List.mem_cons_self c pre')
      rw [List.cons_append]
      simp only [removeFirstHash, if_neg hc]
      rw [ih (fun hmem => hpre (List.mem_cons_of_mem _ hmem)), List.cons_append]
  · intro l
    rw [stripStartsHash_head]
  · intro l
    rw [isBlankLine_all]

/-- Witness for C6 at concrete operands: a fully commented operand takes
the remove branch, a plain one takes the add branch, the first `#` of an
indented comment is removed with the indentation kept, and the toggle test
fires on an indented comment line. -/
theorem toggleComment_spec_witness :
    toggleComment "# a\n# b".data = joinLines ((splitlines "# a\n# b".data).map
        (fun l => if stripStartsHash l then removeFirstHash l else l)) ∧
    toggleComment "x\n\ny".data = joinLines ((splitlines "x\n\ny".data).map
        (fun l => if isBlankLine l then l else '#' :: ' ' :: l)) ∧
    removeFirstHash ("  ".data ++ '#' :: " x".data) = "  ".data ++ " x".data ∧
    stripStartsHash "  # x".data = true :=
  ⟨(toggleComment_spec "# a\n# b".data).1 (by decide),
   (toggleComment_spec "x\n\ny".data).2.1 (by decide),
   (toggleComment_spec [] ).2.2.1 "  ".data " x".data (by decide),
   ((toggleComment_spec [] ).2.2.2.1 "  # x".data).mpr (by decide)⟩

end Notepad

